import Mathlib

/-!
Shallow embedding of the core of the HyperSuprime-Cam/jointcal calibration
library: the photometry mapping hierarchy (`PhotometryMapping.h`), the
association engine (`Associations.h`), the photometric fit engine
(`PhotomFit.h`) and the parameter-index assignment of the models
(`SimpleAstrometryModel.h`).

Pure values stand for the C++ objects; `shared_ptr` aliasing is made explicit
through a small heap of transform cells addressed by natural numbers, so that
in-place mutation through one pointer is visible through every alias, exactly
as in the C++ code.  Machine doubles that only ever hold exact model values
are embedded as rationals; the one place where a floating-point sentinel
matters (the NaN tangent point default) uses an explicit `JDouble` type with
a `nan` constructor.
-/

namespace Jointcal

/-- A photometry transform (`PhotometryTransfo`): a parameter vector together
with evaluation functions that depend on the parameters.  The concrete
polynomial transforms live outside the excerpt, so the evaluation maps are
abstract function fields; `getNpar` is the parameter count and
`offsetParams` adds a delta to the parameter vector. -/
structure PhotometryTransfo where
  params : List ℚ
  eval : List ℚ → ℚ → ℚ → ℚ → ℚ
  evalError : List ℚ → ℚ → ℚ → ℚ → ℚ → ℚ
  evalDerivatives : List ℚ → ℚ → ℚ → ℚ → List ℚ

namespace PhotometryTransfo

/-- `PhotometryTransfo::getNpar`. -/
def getNpar (t : PhotometryTransfo) : Nat := t.params.length

/-- `PhotometryTransfo::transform(x, y, value)`. -/
def transform (t : PhotometryTransfo) (x y value : ℚ) : ℚ :=
  t.eval t.params x y value

/-- `PhotometryTransfo::transformError(x, y, value, valueErr)`. -/
def transformError (t : PhotometryTransfo) (x y value valueErr : ℚ) : ℚ :=
  t.evalError t.params x y value valueErr

/-- `PhotometryTransfo::offsetParams(delta)`: adds `delta` to the parameter
vector, leaving the evaluation maps alone. -/
def offsetParams (t : PhotometryTransfo) (delta : List ℚ) : PhotometryTransfo :=
  { t with params := List.zipWith (· + ·) t.params delta }

/-- `PhotometryTransfo::clone()`: a deep copy; with value semantics this is
the value itself, the sharing structure is handled by the heap below. -/
def clone (t : PhotometryTransfo) : PhotometryTransfo := t

end PhotometryTransfo

/-- The heap of transform cells: models the `shared_ptr<PhotometryTransfo>`
graph.  A pointer is an index into this list. -/
abbrev TransfoHeap : Type := List PhotometryTransfo

/-- Junk cell returned for a dangling pointer; states built by the
constructors below never dereference one. -/
def junkTransfo : PhotometryTransfo :=
  { params := [], eval := fun _ _ _ v => v, evalError := fun _ _ _ _ e => e,
    evalDerivatives := fun _ _ _ _ => [] }

/-- Dereference a pointer. -/
def heapGet (h : TransfoHeap) (p : Nat) : PhotometryTransfo :=
  h.getD p junkTransfo

/-- Overwrite the cell a pointer designates (in-place mutation through a
`shared_ptr`: every alias of `p` sees the new value). -/
def heapSet (h : TransfoHeap) (p : Nat) (t : PhotometryTransfo) : TransfoHeap :=
  h.set p t

/-- `MeasuredStar`: the fields the mappings read — pixel position `(x, y)`
and focal-plane position (`getXFocal()`, `getYFocal()`). -/
structure MeasuredStar where
  x : ℚ
  y : ℚ
  xFocal : ℚ
  yFocal : ℚ

/-- `PhotometryMapping`: the single-transform leaf mapping.  `index` and
`fixedFlag` come from `PhotometryMappingBase` (`index`, `fixed`);
`transfoPtr` is `_transfo` and `transfoErrorsPtr` is `_transfoErrors`. -/
structure PhotometryMapping where
  index : Nat
  fixedFlag : Bool
  transfoPtr : Nat
  transfoErrorsPtr : Nat

/-- A leaf mapping together with the heap its pointers live in. -/
structure MappingState where
  heap : TransfoHeap
  mapping : PhotometryMapping

namespace PhotometryMapping

/-- The `PhotometryMapping` constructor: allocates the transform, the value
transform owns it and the error transform aliases it
(`_transfo(std::move(transfo)), _transfoErrors(_transfo)`). -/
def mk' (h : TransfoHeap) (t : PhotometryTransfo) : MappingState :=
  { heap := h ++ [t],
    mapping := { index := 0, fixedFlag := false,
                 transfoPtr := h.length, transfoErrorsPtr := h.length } }

/-- `PhotometryMapping::getNpar`: `0` when fixed, else the transform's
parameter count. -/
def getNpar (st : MappingState) : Nat :=
  if st.mapping.fixedFlag then 0
  else (heapGet st.heap st.mapping.transfoPtr).getNpar

/-- `PhotometryMapping::transform(measuredStar, value)`. -/
def transform (st : MappingState) (ms : MeasuredStar) (value : ℚ) : ℚ :=
  (heapGet st.heap st.mapping.transfoPtr).transform ms.x ms.y value

/-- `PhotometryMapping::transformError(measuredStar, value, valueErr)`:
evaluated through `_transfoErrors`. -/
def transformError (st : MappingState) (ms : MeasuredStar) (value valueErr : ℚ) : ℚ :=
  (heapGet st.heap st.mapping.transfoErrorsPtr).transformError ms.x ms.y value valueErr

/-- `PhotometryMapping::freezeErrorTransform`: replaces `_transfoErrors` by a
fresh clone of `_transfo` (`std::shared_ptr<PhotometryTransfo>(_transfo->clone())`). -/
def freezeErrorTransform (st : MappingState) : MappingState :=
  { heap := st.heap ++ [(heapGet st.heap st.mapping.transfoPtr).clone],
    mapping := { st.mapping with transfoErrorsPtr := st.heap.length } }

/-- `PhotometryMapping::offsetParams(delta)`: `_transfo->offsetParams(delta)`,
an in-place mutation of the cell `_transfo` points to. -/
def offsetParams (st : MappingState) (delta : List ℚ) : MappingState :=
  { st with heap := heapSet st.heap st.mapping.transfoPtr
              ((heapGet st.heap st.mapping.transfoPtr).offsetParams delta) }

/-- Overwrite the first `newVals.length` entries of `derivs` with `newVals`,
keeping the tail: the effect of the transform writing its derivatives into
the caller-provided `Eigen::Ref` vector. -/
def overwriteInto (derivs newVals : List ℚ) : List ℚ :=
  newVals ++ derivs.drop newVals.length

/-- `PhotometryMapping::computeParameterDerivatives`: when fixed, returns
without touching the output vector; otherwise the transform writes its
`getNpar()` derivatives into it. -/
def computeParameterDerivatives (st : MappingState) (ms : MeasuredStar)
    (value : ℚ) (derivs : List ℚ) : List ℚ :=
  if st.mapping.fixedFlag then derivs
  else
    let t := heapGet st.heap st.mapping.transfoPtr
    overwriteInto derivs ((t.evalDerivatives t.params ms.x ms.y value).take t.getNpar)

/-- `PhotometryMapping::getMappingIndices`: grows `indices` to `getNpar()`
when it is shorter (a `resize`, padding with zeroes), then overwrites the
first `getNpar()` entries with `index + k`; entries beyond `getNpar()` are
left as they were. -/
def getMappingIndices (st : MappingState) (indices : List Nat) : List Nat :=
  let n := getNpar st
  let grown := if indices.length < n
    then indices ++ List.replicate (n - indices.length) 0 else indices
  ((List.range n).map (fun k => st.mapping.index + k)) ++ grown.drop n

end PhotometryMapping

/-- `ChipVisitPhotometryMapping`: the two-level chip+visit composite.
`nParChip`/`nParVisit` are `_nParChip`/`_nParVisit` (each either the
sub-transform's parameter count or `0` depending on `setWhatToFit`); the two
sub-mappings are held by value here, their transform cells in the shared
heap. -/
structure ChipVisitPhotometryMapping where
  index : Nat
  fixedFlag : Bool
  nParChip : Nat
  nParVisit : Nat
  chipMapping : PhotometryMapping
  visitMapping : PhotometryMapping

/-- A composite mapping together with the heap its pointers live in. -/
structure ChipVisitState where
  heap : TransfoHeap
  mapping : ChipVisitPhotometryMapping

namespace ChipVisitPhotometryMapping

/-- The sub-state for the chip mapping. -/
def chipState (st : ChipVisitState) : MappingState :=
  { heap := st.heap, mapping := st.mapping.chipMapping }

/-- The sub-state for the visit mapping. -/
def visitState (st : ChipVisitState) : MappingState :=
  { heap := st.heap, mapping := st.mapping.visitMapping }

/-- The `ChipVisitPhotometryMapping` constructor: stores the two sub-mappings
and initialises `_nParChip = _nParVisit = 0`. -/
def mk' (h : TransfoHeap) (chip visit : PhotometryMapping) : ChipVisitState :=
  { heap := h,
    mapping := { index := 0, fixedFlag := false, nParChip := 0, nParVisit := 0,
                 chipMapping := chip, visitMapping := visit } }

/-- `ChipVisitPhotometryMapping::getNpar`: `_nParChip + _nParVisit`. -/
def getNpar (st : ChipVisitState) : Nat :=
  st.mapping.nParChip + st.mapping.nParVisit

/-- `ChipVisitPhotometryMapping::transform`: the chip transform is evaluated
at the star's pixel position, then the visit transform at its focal-plane
position on the result. -/
def transform (st : ChipVisitState) (ms : MeasuredStar) (value : ℚ) : ℚ :=
  let temp := (heapGet st.heap st.mapping.chipMapping.transfoPtr).transform
      ms.x ms.y value
  (heapGet st.heap st.mapping.visitMapping.transfoPtr).transform
      ms.xFocal ms.yFocal temp

/-- Modelled from the spec: `ChipVisitPhotometryMapping::setWhatToFit`
(declared in `PhotometryMapping.h`, defined in the `.cc` file absent from the
excerpt).  Per the spec, the total parameter count is the sum over whichever
sub-mappings are currently set as variable, so each `_nPar` member becomes
the sub-mapping's parameter count when that component is fitted and `0`
otherwise. -/
def setWhatToFit (st : ChipVisitState) (fittingChips fittingVisits : Bool) :
    ChipVisitState :=
  { st with mapping :=
      { st.mapping with
        nParChip := if fittingChips
          then PhotometryMapping.getNpar (chipState st) else 0,
        nParVisit := if fittingVisits
          then PhotometryMapping.getNpar (visitState st) else 0 } }

/-- Modelled from the spec:
`ChipVisitFluxMapping::computeParameterDerivatives` (declared in
`PhotometryMapping.h`, defined in a `.cc` file absent from the excerpt).  Per
the spec, derivatives of components not being fitted are skipped: the chip
derivatives fill the first `_nParChip` slots and the visit derivatives the
next `_nParVisit` slots of the caller's vector; nothing else is written. -/
def computeParameterDerivatives (st : ChipVisitState) (ms : MeasuredStar)
    (value : ℚ) (derivs : List ℚ) : List ℚ :=
  let chipT := heapGet st.heap st.mapping.chipMapping.transfoPtr
  let visitT := heapGet st.heap st.mapping.visitMapping.transfoPtr
  let chipPart := (chipT.evalDerivatives chipT.params ms.x ms.y value).take
      st.mapping.nParChip
  let visitPart := (visitT.evalDerivatives visitT.params ms.xFocal ms.yFocal
      value).take st.mapping.nParVisit
  PhotometryMapping.overwriteInto derivs (chipPart ++ visitPart)

end ChipVisitPhotometryMapping

/-! ## Association engine: cross-matching (`Associations::associateCatalogs`) -/

/-- A detection (or a fitted star's creation position) projected into the
common tangent plane. -/
structure TpPoint where
  x : ℚ
  y : ℚ
deriving DecidableEq

/-- Squared tangent-plane distance. -/
def sqDist (p q : TpPoint) : ℚ :=
  (p.x - q.x) * (p.x - q.x) + (p.y - q.y) * (p.y - q.y)

/-- Whether `p` lies within the match cutoff of `q`.  Strict, so a cutoff of
`0` disables matching, as the spec states. -/
def withinCut (cut : ℚ) (p q : TpPoint) : Bool :=
  decide (sqDist p q < cut * cut)

/-- Modelled from the spec: one incremental pass of
`Associations::associateCatalogs` over a single CcdImage catalog (the
implementation lives in `Associations.cc`, absent from the excerpt).  Per
the spec, each MeasuredStar of the image is matched against the existing
FittedStars within the cutoff; matched detections merge into their
FittedStar (which keeps its position), unmatched detections are appended as
new FittedStars (`enlargeFittedList` behaviour).  The whole catalog is
matched against the fitted list as it stood when the image was reached. -/
def associateOneImage (cut : ℚ) (fitted : List TpPoint) (img : List TpPoint) :
    List TpPoint :=
  fitted ++ img.filter (fun d => !(fitted.any (fun s => withinCut cut d s)))

/-- Modelled from the spec: `Associations::associateCatalogs(matchCut)`,
processing the CcdImage list incrementally in order, starting from an empty
fitted list (`useFittedList = false`, `enlargeFittedList = true`). -/
def associateCatalogs (cut : ℚ) (images : List (List TpPoint)) : List TpPoint :=
  images.foldl (associateOneImage cut) []

/-- The resulting FittedStar count. -/
def numFittedStars (cut : ℚ) (images : List (List TpPoint)) : Nat :=
  (associateCatalogs cut images).length

/-- Total number of detections over all images. -/
def totalDetections (images : List (List TpPoint)) : Nat :=
  (images.map List.length).sum

/-! ## Association engine: `prepareFittedStars` (select + normalize) -/

/-- The association-side view of a MeasuredStar: its tangent-plane/sky
position and its back-reference to a FittedStar (an arena index, `none` when
unassociated). -/
structure MeasuredStarRec where
  x : ℚ
  y : ℚ
  fittedIndex : Option Nat
deriving DecidableEq

/-- A FittedStar: shared position estimate and its measurement count. -/
structure FittedStarRec where
  x : ℚ
  y : ℚ
  measurementCount : Nat
deriving DecidableEq

/-- The star lists of an `Associations` object during `prepareFittedStars`:
the FittedStar arena (dropped stars become `none`, keeping indices stable)
and the MeasuredStars of all CcdImages. -/
structure StarLists where
  fittedStars : List (Option FittedStarRec)
  measuredStars : List MeasuredStarRec
deriving DecidableEq

/-- The MeasuredStars associated to the FittedStar at arena index `i`. -/
def measurementsOf (st : StarLists) (i : Nat) : List MeasuredStarRec :=
  st.measuredStars.filter (fun ms => ms.fittedIndex = some i)

/-- Modelled from the spec: `Associations::selectFittedStars(minMeasurements)`
(defined in `Associations.cc`, absent from the excerpt).  Per the spec,
FittedStars whose measurement count is below the threshold are dropped and
the back-references of their MeasuredStars are cleared. -/
def selectFittedStars (minMeasurements : Nat) (st : StarLists) : StarLists :=
  let keep : Option FittedStarRec → Option FittedStarRec := fun f =>
    match f with
    | none => none
    | some f => if f.measurementCount < minMeasurements then none else some f
  let fitted := st.fittedStars.map keep
  { fittedStars := fitted,
    measuredStars := st.measuredStars.map (fun ms =>
      match ms.fittedIndex with
      | none => ms
      | some i => if (fitted.getD i none).isSome then ms
                  else { ms with fittedIndex := none }) }

/-- Modelled from the spec: `Associations::normalizeFittedStars` (defined in
`Associations.cc`, absent from the excerpt).  Per the spec and the header
comment, each surviving FittedStar's position becomes the accumulated sum of
its associated MeasuredStars' positions divided by its measurement count,
assuming (header precondition) that the count is correct. -/
def normalizeFittedStars (st : StarLists) : StarLists :=
  { st with fittedStars :=
      (List.range st.fittedStars.length).map (fun i =>
        match st.fittedStars.getD i none with
        | none => none
        | some f =>
          let ms := measurementsOf st i
          some { f with
                 x := (ms.map MeasuredStarRec.x).sum / (f.measurementCount : ℚ),
                 y := (ms.map MeasuredStarRec.y).sum / (f.measurementCount : ℚ) }) }

/-- `Associations::prepareFittedStars(minMeasurements)`: quality cut then
normalization, in that order. -/
def prepareFittedStars (minMeasurements : Nat) (st : StarLists) : StarLists :=
  normalizeFittedStars (selectFittedStars minMeasurements st)

/-- The measurement counts are correct: every FittedStar's stored
`measurementCount` equals the number of MeasuredStars referencing it.  This
is the precondition `normalizeFittedStars` documents ("it assumes ... that
the measurementCount for each fittedStar is correct"). -/
def countsCorrect (st : StarLists) : Bool :=
  (List.range st.fittedStars.length).all (fun i =>
    match st.fittedStars.getD i none with
    | none => true
    | some f => decide (f.measurementCount = (measurementsOf st i).length))

/-! ## Model-level parameter index assignment (`assignIndices`) -/

/-- Modelled from the spec: the index-assignment loop shared by
`SimpleAstrometryModel::assignIndices` and the photometry models (defined in
`.cc` files absent from the excerpt).  Per the spec, walking the model's
Mappings in order, each Mapping whose component is fitted receives a
contiguous block starting at the current index, which then advances by the
Mapping's current parameter count; the next free index is returned.  The
input is the list of the Mappings' current parameter counts (`getNpar()`,
already `0` for fixed Mappings); the output pairs each Mapping's assigned
start index with its count. -/
def assignIndicesFrom (firstIndex : Nat) : List Nat → List (Nat × Nat) × Nat
  | [] => ([], firstIndex)
  | n :: rest =>
    let tail := assignIndicesFrom (firstIndex + n) rest
    ((firstIndex, n) :: tail.1, tail.2)

/-- The global indices of one Mapping, as `getMappingIndices` fills them:
`index + k` for `k < getNpar()`. -/
def blockIndices (p : Nat × Nat) : List Nat :=
  (List.range p.2).map (fun k => p.1 + k)

/-! ## Photometric fit engine (`PhotomFit`) -/

/-- The `whatToFit` selector, post-parsing: which of the two photometric
parameter groups (`"Model"`, `"Fluxes"`) are variable. -/
structure WhatToFit where
  fittingModel : Bool
  fittingFluxes : Bool

/-- The fit-relevant state of a `PhotomFit`: the model's parameter vector and
the per-star flux parameters, plus the `_fittingModel`, `_fittingFluxes`,
`_nParModel`, `_nParFluxes`, `_nParTot` bookkeeping set by `assignIndices`. -/
structure PhotomFitState where
  modelParams : List ℚ
  fluxParams : List ℚ
  fittingModel : Bool
  fittingFluxes : Bool
  nParModel : Nat
  nParFluxes : Nat
  nParTot : Nat
deriving DecidableEq

/-- The assembled normal-equations data: the sparse Jacobian triplet list and
the right-hand side. -/
structure NormalSystem where
  triplets : List (Nat × Nat × ℚ)
  rhs : List ℚ

namespace PhotomFit

/-- Modelled from the spec: `PhotomFit::assignIndices(whatToFit)` (defined in
`PhotomFit.cc`, absent from the excerpt).  Per the header, it sets the
parameter groups fixed or variable and lays the variable groups out in the
grand vector: model parameters first, then fluxes, with `_nParTot` their
total. -/
def assignIndices (w : WhatToFit) (st : PhotomFitState) : PhotomFitState :=
  let nModel := if w.fittingModel then st.modelParams.length else 0
  let nFluxes := if w.fittingFluxes then st.fluxParams.length else 0
  { st with fittingModel := w.fittingModel, fittingFluxes := w.fittingFluxes,
            nParModel := nModel, nParFluxes := nFluxes,
            nParTot := nModel + nFluxes }

/-- The unchecked parameter update: each variable group reads its slice of
`delta` (model slice first, then fluxes) and offsets its own parameters. -/
def offsetApply (delta : List ℚ) (st : PhotomFitState) : PhotomFitState :=
  { st with
    modelParams := if st.fittingModel
      then List.zipWith (· + ·) st.modelParams (delta.take st.nParModel)
      else st.modelParams,
    fluxParams := if st.fittingFluxes
      then List.zipWith (· + ·) st.fluxParams (delta.drop st.nParModel)
      else st.fluxParams }

/-- The usage errors `PhotomFit` reports at the call site. -/
inductive UsageError where
  | sizeMismatch
deriving DecidableEq

/-- Modelled from the spec: `PhotomFit::offsetParams(delta)` (defined in
`PhotomFit.cc`, absent from the excerpt).  Per the header, only the size can
be tested against the layout of the last `assignIndices`; a mismatched size
is a reportable usage error raised before any parameter is touched, so the
state comes back unchanged alongside the error. -/
def offsetParams (delta : List ℚ) (st : PhotomFitState) :
    PhotomFitState × Option UsageError :=
  if delta.length = st.nParTot then (offsetApply delta st, none)
  else (st, some UsageError.sizeMismatch)

/-- Modelled from the spec: `PhotomFit::minimize(whatToFit)` (defined in
`PhotomFit.cc`, absent from the excerpt).  Per the header it is one complete
Newton step with no line search: `assignIndices`, `LSDerivatives`
(`lsd`, the per-CcdImage triplet/RHS assembly), factorize-and-solve
(`factorize`, the external sparse backend, which yields `none` exactly when
the factorization fails), then `offsetParams` with the solution; it returns
`false` iff the factorization failed, and on that path no parameter is
offset. -/
def minimize (lsd : PhotomFitState → NormalSystem)
    (factorize : NormalSystem → Option (List ℚ)) (w : WhatToFit)
    (st : PhotomFitState) : Bool × PhotomFitState :=
  let st1 := assignIndices w st
  match factorize (lsd st1) with
  | none => (false, st1)
  | some delta => (true, offsetApply delta st1)

end PhotomFit

/-! ## The `Associations` object and its tangent point (`Associations.h`) -/

/-- A double that is either a finite model value or the quiet NaN sentinel
stored by the `Associations` constructors. -/
inductive JDouble where
  | nan
  | val (q : ℚ)
deriving DecidableEq

/-- Whether the double is NaN. -/
def JDouble.isNaN : JDouble → Bool
  | .nan => true
  | .val _ => false

/-- A `Point` whose coordinates may hold the NaN sentinel. -/
structure JPoint where
  x : JDouble
  y : JDouble
deriving DecidableEq

/-- The members of `Associations` its constructors initialise: the three
star/image lists and `_commonTangentPoint` (CcdImages, RefStars and
FittedStars are referenced by abstract handles here). -/
structure AssociationsObj where
  ccdImageList : List Nat
  refStarList : List Nat
  fittedStarList : List Nat
  commonTangentPoint : JPoint
deriving DecidableEq

namespace AssociationsObj

/-- The default `Associations()` constructor: only initialises
`_commonTangentPoint` to `(quiet_NaN, quiet_NaN)`. -/
def mkDefault : AssociationsObj :=
  { ccdImageList := [], refStarList := [], fittedStarList := [],
    commonTangentPoint := { x := JDouble.nan, y := JDouble.nan } }

/-- The `Associations(CcdImageList const &imageList)` constructor: stores the
pre-built image list and initialises `_commonTangentPoint` to
`(quiet_NaN, quiet_NaN)`. -/
def mkFromImages (imageList : List Nat) : AssociationsObj :=
  { ccdImageList := imageList, refStarList := [], fittedStarList := [],
    commonTangentPoint := { x := JDouble.nan, y := JDouble.nan } }

/-- `Associations::getCommonTangentPoint()`. -/
def getCommonTangentPoint (a : AssociationsObj) : JPoint :=
  a.commonTangentPoint

/-- Modelled from the spec: `Associations::setCommonTangentPoint(p)` (defined
in `Associations.cc`, absent from the excerpt): stores the given point as the
shared tangent point. -/
def setCommonTangentPoint (a : AssociationsObj) (p : JPoint) : AssociationsObj :=
  { a with commonTangentPoint := p }

end AssociationsObj

/-! ## Concrete sample objects used by the witness theorems -/

/-- A concrete transform: value scaled by the sum of the parameters. -/
def sampleTransfo : PhotometryTransfo :=
  { params := [2],
    eval := fun ps _ _ v => ps.sum * v,
    evalError := fun ps _ _ _ e => ps.sum * e,
    evalDerivatives := fun _ _ _ v => [v] }

/-- A concrete measured star. -/
def sampleStar : MeasuredStar :=
  { x := 1, y := 2, xFocal := 3, yFocal := 4 }

/-- A leaf mapping state whose mapping is marked fixed. -/
def sampleFixedState : MappingState :=
  { heap := [sampleTransfo],
    mapping := { index := 0, fixedFlag := true, transfoPtr := 0,
                 transfoErrorsPtr := 0 } }

/-- A concrete `PhotomFit` state with no free parameters laid out. -/
def sampleFitState : PhotomFitState :=
  { modelParams := [1], fluxParams := [2, 3], fittingModel := false,
    fittingFluxes := false, nParModel := 0, nParFluxes := 0, nParTot := 0 }

/-- A concrete `whatToFit` selector fitting both groups. -/
def sampleWhatToFit : WhatToFit :=
  { fittingModel := true, fittingFluxes := true }

/-- A derivative/RHS assembly returning an empty system. -/
def sampleLsd : PhotomFitState → NormalSystem :=
  fun _ => { triplets := [], rhs := [] }

/-- A sparse backend whose factorization always fails. -/
def failingFactorize : NormalSystem → Option (List ℚ) :=
  fun _ => none

/-- Star lists with one FittedStar holding two measurements. -/
def sampleStarLists : StarLists :=
  { fittedStars := [some { x := 0, y := 0, measurementCount := 2 }],
    measuredStars := [{ x := 1, y := 3, fittedIndex := some 0 },
                      { x := 3, y := 5, fittedIndex := some 0 }] }

/-- The image set of the cutoff-monotonicity counterexample: detections at
tangent-plane abscissas 0, 3, then 4 and 5, one image after the other. -/
def cutoffImages : List (List TpPoint) :=
  [[{ x := 0, y := 0 }], [{ x := 3, y := 0 }],
   [{ x := 4, y := 0 }, { x := 5, y := 0 }]]

/-! ## Helper lemmas about the transform heap -/

theorem heapGet_concat_self (h : TransfoHeap) (t : PhotometryTransfo) :
    heapGet (h ++ [t]) h.length = t := by
  rw [heapGet, List.getD_eq_getElem?_getD, List.getElem?_concat_length]
  rfl

theorem heapSet_concat_self (h : TransfoHeap) (t x : PhotometryTransfo) :
    heapSet (h ++ [t]) h.length x = h ++ [x] := by
  induction h with
  | nil => rfl
  | cons a h ih =>
    show a :: heapSet (h ++ [t]) h.length x = a :: (h ++ [x])
    rw [ih]

theorem heapGet_heapSet_ne (h : TransfoHeap) {i j : Nat}
    (x : PhotometryTransfo) (hij : i ≠ j) :
    heapGet (heapSet h i x) j = heapGet h j := by
  rw [heapGet, heapSet, List.getD_eq_getElem?_getD, List.getElem?_set_ne hij,
    heapGet, List.getD_eq_getElem?_getD]

theorem heapGet_heapSet_self (h : TransfoHeap) {i : Nat}
    (x : PhotometryTransfo) (hi : i < h.length) :
    heapGet (heapSet h i x) i = x := by
  rw [heapGet, heapSet, List.getD_eq_getElem?_getD,
    List.getElem?_set_eq_of_lt x hi]
  rfl

/-- `offsetParams` leaves the mapping's pointers alone and only rewrites the
heap cell the value transform points to. -/
theorem offsetParams_foldl_preserves (deltas : List (List ℚ)) :
    ∀ s : MappingState,
      (deltas.foldl PhotometryMapping.offsetParams s).mapping = s.mapping ∧
      ∀ j, j ≠ s.mapping.transfoPtr →
        heapGet (deltas.foldl PhotometryMapping.offsetParams s).heap j =
          heapGet s.heap j := by
  induction deltas with
  | nil => intro s; exact ⟨rfl, fun j _ => rfl⟩
  | cons d deltas ih =>
    intro s
    have step : (PhotometryMapping.offsetParams s d).mapping = s.mapping := rfl
    refine ⟨(ih (PhotometryMapping.offsetParams s d)).1.trans step, ?_⟩
    intro j hj
    have h1 := (ih (PhotometryMapping.offsetParams s d)).2 j (by rw [step]; exact hj)
    rw [List.foldl_cons, h1]
    exact heapGet_heapSet_ne _ _ (fun he => hj he.symm)

/-! ## Claim theorems -/

theorem heapGet_append_left (h l : TransfoHeap) {i : Nat} (hi : i < h.length) :
    heapGet (h ++ l) i = heapGet h i := by
  rw [heapGet, List.getD_eq_getElem?_getD, List.getElem?_append, if_pos hi,
    heapGet, List.getD_eq_getElem?_getD]

/-- C6: on construction the error transform aliases the value transform, so
`offsetParams` moves both; after `freezeErrorTransform` the error transform
is an independent clone of the value transform at freeze time, so later
`offsetParams` calls move only the value transform and every
`transformError` result stays fixed. -/
theorem freezeErrorTransform_decouples_errors :
    (∀ (h : TransfoHeap) (t : PhotometryTransfo),
      (PhotometryMapping.mk' h t).mapping.transfoErrorsPtr =
        (PhotometryMapping.mk' h t).mapping.transfoPtr ∧
      ∀ (delta : List ℚ) (ms : MeasuredStar) (v e : ℚ),
        PhotometryMapping.transformError
            (PhotometryMapping.offsetParams (PhotometryMapping.mk' h t) delta)
            ms v e =
          (t.offsetParams delta).transformError ms.x ms.y v e) ∧
    (∀ st : MappingState, st.mapping.transfoPtr < st.heap.length →
      (∀ (ms : MeasuredStar) (v e : ℚ),
        PhotometryMapping.transformError
            (PhotometryMapping.freezeErrorTransform st) ms v e =
          (heapGet st.heap st.mapping.transfoPtr).transformError ms.x ms.y v e) ∧
      (∀ (delta : List ℚ) (ms : MeasuredStar) (v : ℚ),
        PhotometryMapping.transform
            (PhotometryMapping.offsetParams
              (PhotometryMapping.freezeErrorTransform st) delta) ms v =
          ((heapGet st.heap st.mapping.transfoPtr).offsetParams delta).transform
            ms.x ms.y v) ∧
      (∀ (deltas : List (List ℚ)) (ms : MeasuredStar) (v e : ℚ),
        PhotometryMapping.transformError
            (deltas.foldl PhotometryMapping.offsetParams
              (PhotometryMapping.freezeErrorTransform st)) ms v e =
          PhotometryMapping.transformError
            (PhotometryMapping.freezeErrorTransform st) ms v e)) := by
  constructor
  · intro h t
    refine ⟨rfl, ?_⟩
    intro delta ms v e
    show (heapGet (heapSet (h ++ [t]) h.length
        ((heapGet (h ++ [t]) h.length).offsetParams delta)) h.length).transformError
        ms.x ms.y v e = _
    rw [heapGet_concat_self, heapSet_concat_self, heapGet_concat_self]
  · intro st hlt
    have hne : st.heap.length ≠ st.mapping.transfoPtr := Nat.ne_of_gt hlt
    refine ⟨?_, ?_, ?_⟩
    · intro ms v e
      show (heapGet (st.heap ++ [(heapGet st.heap st.mapping.transfoPtr).clone])
          st.heap.length).transformError ms.x ms.y v e = _
      rw [heapGet_concat_self]
      rfl
    · intro delta ms v
      show (heapGet (heapSet (st.heap ++ [(heapGet st.heap st.mapping.transfoPtr).clone])
          st.mapping.transfoPtr
          ((heapGet (st.heap ++ [(heapGet st.heap st.mapping.transfoPtr).clone])
            st.mapping.transfoPtr).offsetParams delta))
          st.mapping.transfoPtr).transform ms.x ms.y v = _
      rw [heapGet_heapSet_self _ _
        (hlt.trans_le (by rw [List.length_append]; exact Nat.le_add_right _ _)),
        heapGet_append_left _ _ hlt]
    · intro deltas ms v e
      have hp := offsetParams_foldl_preserves deltas
        (PhotometryMapping.freezeErrorTransform st)
      rw [PhotometryMapping.transformError, PhotometryMapping.transformError, hp.1]
      exact congrArg (fun t => PhotometryTransfo.transformError t ms.x ms.y v e)
        (hp.2 _ hne)

/-- C6 witness: for a concrete mapping, after freezing, one concrete
`offsetParams` call leaves the error transform's output unchanged. -/
theorem freezeErrorTransform_decouples_errors_witness :
    PhotometryMapping.transformError
        ([[1]].foldl PhotometryMapping.offsetParams
          (PhotometryMapping.freezeErrorTransform
            (PhotometryMapping.mk' [] sampleTransfo))) sampleStar 1 1 =
      PhotometryMapping.transformError
        (PhotometryMapping.freezeErrorTransform
          (PhotometryMapping.mk' [] sampleTransfo)) sampleStar 1 1 :=
  ((freezeErrorTransform_decouples_errors.2
    (PhotometryMapping.mk' [] sampleTransfo) (by decide)).2.2) [[1]] sampleStar 1 1

/-- C7: the two-level chip+visit composite mapping evaluates as functional
composition in the order chip then visit: `ChipVisitPhotometryMapping::transform(ms, v)`
equals the visit mapping's transform, evaluated at the star's focal-plane
position, applied to the result of the chip mapping's transform, evaluated
at the star's pixel position, applied to `v`. -/
theorem chipVisit_transform_composition (st : ChipVisitState)
    (ms : MeasuredStar) (v : ℚ) :
    ChipVisitPhotometryMapping.transform st ms v =
      (heapGet st.heap st.mapping.visitMapping.transfoPtr).transform
        ms.xFocal ms.yFocal
        (PhotometryMapping.transform (ChipVisitPhotometryMapping.chipState st) ms v) :=
  rfl

/-- C10: both `Associations` constructors initialise the common tangent
point to `(quiet_NaN, quiet_NaN)` and set no other tangent-point default;
`getCommonTangentPoint` returns that NaN point until
`setCommonTangentPoint` stores an actual point. -/
theorem associations_ctor_tangent_point_nan (imageList : List Nat) :
    (AssociationsObj.mkDefault.getCommonTangentPoint.x.isNaN = true ∧
     AssociationsObj.mkDefault.getCommonTangentPoint.y.isNaN = true) ∧
    ((AssociationsObj.mkFromImages imageList).getCommonTangentPoint.x.isNaN = true ∧
     (AssociationsObj.mkFromImages imageList).getCommonTangentPoint.y.isNaN = true) ∧
    (AssociationsObj.mkFromImages imageList).ccdImageList = imageList ∧
    ∀ p : JPoint,
      (AssociationsObj.setCommonTangentPoint
        (AssociationsObj.mkFromImages imageList) p).getCommonTangentPoint = p :=
  ⟨⟨rfl, rfl⟩, ⟨rfl, rfl⟩, rfl, fun _ => rfl⟩

/-- C5: a mapping whose fit component is not requested reports zero
parameters and leaves the caller's derivative vector untouched — for the
single-transform leaf mapping this is the `fixed` flag, and for the
two-level chip+visit composite it is `setWhatToFit(false, false)`. -/
theorem fixed_mapping_npar_zero_derivs_skipped :
    (∀ (st : MappingState) (ms : MeasuredStar) (v : ℚ) (derivs : List ℚ),
      st.mapping.fixedFlag = true →
        PhotometryMapping.getNpar st = 0 ∧
        PhotometryMapping.computeParameterDerivatives st ms v derivs = derivs) ∧
    (∀ (st : ChipVisitState) (ms : MeasuredStar) (v : ℚ) (derivs : List ℚ),
      ChipVisitPhotometryMapping.getNpar
          (ChipVisitPhotometryMapping.setWhatToFit st false false) = 0 ∧
      ChipVisitPhotometryMapping.computeParameterDerivatives
          (ChipVisitPhotometryMapping.setWhatToFit st false false) ms v derivs =
        derivs) := by
  constructor
  · intro st ms v derivs hfix
    constructor
    · rw [PhotometryMapping.getNpar, hfix]
      rfl
    · rw [PhotometryMapping.computeParameterDerivatives, hfix]
      rfl
  · intro st ms v derivs
    constructor
    · rfl
    · show PhotometryMapping.overwriteInto derivs
        ((_ : List ℚ).take 0 ++ (_ : List ℚ).take 0) = derivs
      simp [PhotometryMapping.overwriteInto]

/-- C5 witness: a concrete fixed leaf mapping has zero parameters and leaves
a concrete derivative vector unchanged. -/
theorem fixed_mapping_npar_zero_derivs_skipped_witness :
    PhotometryMapping.getNpar sampleFixedState = 0 ∧
    PhotometryMapping.computeParameterDerivatives sampleFixedState sampleStar 1
      [5, 6] = [5, 6] :=
  fixed_mapping_npar_zero_derivs_skipped.1 sampleFixedState sampleStar 1 [5, 6] rfl

theorem getD_map_none {α : Type} (l : List (Option α)) (g : Option α → Option α)
    (hg : g none = none) (i : Nat) :
    (l.map g).getD i none = g (l.getD i none) := by
  rw [List.getD_eq_getElem?_getD, List.getElem?_map, List.getD_eq_getElem?_getD]
  cases l[i]? with
  | none => simp [hg]
  | some a => simp

/-- Clearing the back-references of MeasuredStars whose FittedStar is gone
does not change the set of MeasuredStars referencing a surviving index. -/
theorem filter_idx_clear (l : List MeasuredStarRec) (alive : Nat → Bool)
    (i : Nat) (hi : alive i = true) :
    (l.map (fun ms =>
      match ms.fittedIndex with
      | none => ms
      | some j => if alive j then ms
                  else { ms with fittedIndex := none })).filter
        (fun ms => ms.fittedIndex = some i) =
      l.filter (fun ms => ms.fittedIndex = some i) := by
  induction l with
  | nil => rfl
  | cons a l ih =>
    rw [List.map_cons, List.filter_cons, List.filter_cons, ih]
    cases hidx : a.fittedIndex with
    | none => simp [hidx]
    | some j =>
      by_cases hji : j = i
      · subst hji
        simp [hidx, hi]
      · by_cases hj : alive j = true
        · simp [hidx, hj, hji]
        · simp [hidx, hj, hji]

theorem countsCorrect_spec {st : StarLists} (hc : countsCorrect st = true)
    {i : Nat} {f : FittedStarRec} (hf : st.fittedStars.getD i none = some f) :
    f.measurementCount = (measurementsOf st i).length := by
  by_cases hi : i < st.fittedStars.length
  · have hall := List.all_eq_true.mp hc i (List.mem_range.mpr hi)
    rw [hf] at hall
    exact of_decide_eq_true hall
  · rw [List.getD_eq_default _ _ (by omega)] at hf
    cases hf

theorem selectFittedStars_getD (m : Nat) (st : StarLists) (i : Nat) :
    (selectFittedStars m st).fittedStars.getD i none =
      match st.fittedStars.getD i none with
      | none => none
      | some f => if f.measurementCount < m then none else some f :=
  getD_map_none st.fittedStars _ rfl i

theorem normalizeFittedStars_getD (st : StarLists) (i : Nat)
    (hi : i < st.fittedStars.length) :
    (normalizeFittedStars st).fittedStars.getD i none =
      match st.fittedStars.getD i none with
      | none => none
      | some f => some { f with
          x := ((measurementsOf st i).map MeasuredStarRec.x).sum /
            (f.measurementCount : ℚ),
          y := ((measurementsOf st i).map MeasuredStarRec.y).sum /
            (f.measurementCount : ℚ) } := by
  show ((List.range st.fittedStars.length).map _).getD i none = _
  rw [List.getD_eq_getElem?_getD, List.getElem?_map, List.getElem?_range hi]
  rfl

theorem measurementsOf_select (m : Nat) (st : StarLists) (i : Nat)
    (hs : ((selectFittedStars m st).fittedStars.getD i none).isSome = true) :
    measurementsOf (selectFittedStars m st) i = measurementsOf st i := by
  show ((st.measuredStars.map _).filter _) = (st.measuredStars.filter _)
  exact filter_idx_clear st.measuredStars _ i hs

/-- C2: after `selectFittedStars(m)` followed by `normalizeFittedStars()`,
every surviving FittedStar's position is the arithmetic mean of the sky
positions of its matched MeasuredStars, of which there are at least `m`
(exact in the rational model, which is the floating-point computation with
its round-off removed); the `countsCorrect` hypothesis is the documented
precondition that measurement counts are final when normalization runs. -/
theorem prepareFittedStars_mean (st : StarLists) (m : Nat)
    (hc : countsCorrect st = true) (i : Nat) (f : FittedStarRec)
    (hf : (prepareFittedStars m st).fittedStars.getD i none = some f) :
    f.x = ((measurementsOf (selectFittedStars m st) i).map MeasuredStarRec.x).sum /
        ((measurementsOf (selectFittedStars m st) i).length : ℚ) ∧
    f.y = ((measurementsOf (selectFittedStars m st) i).map MeasuredStarRec.y).sum /
        ((measurementsOf (selectFittedStars m st) i).length : ℚ) ∧
    m ≤ (measurementsOf (selectFittedStars m st) i).length := by
  have hlen : (normalizeFittedStars (selectFittedStars m st)).fittedStars.length =
      (selectFittedStars m st).fittedStars.length := by
    rw [normalizeFittedStars]
    simp
  by_cases hi : i < (selectFittedStars m st).fittedStars.length
  case neg =>
    rw [prepareFittedStars, List.getD_eq_default _ _ (by omega)] at hf
    cases hf
  case pos =>
    rw [prepareFittedStars,
      normalizeFittedStars_getD (selectFittedStars m st) i hi] at hf
    cases hsd : (selectFittedStars m st).fittedStars.getD i none with
    | none => rw [hsd] at hf; cases hf
    | some f0 =>
      rw [hsd] at hf
      injection hf with hf
      have hkeep := selectFittedStars_getD m st i
      rw [hsd] at hkeep
      cases hst : st.fittedStars.getD i none with
      | none => rw [hst] at hkeep; cases hkeep
      | some g0 =>
        rw [hst] at hkeep
        have hkeep' : some f0 =
            if g0.measurementCount < m then none else some g0 := hkeep
        by_cases hlt : g0.measurementCount < m
        case pos => rw [if_pos hlt] at hkeep'; cases hkeep'
        case neg =>
          rw [if_neg hlt] at hkeep'
          injection hkeep' with hkeep'
          have hmeq : measurementsOf (selectFittedStars m st) i =
              measurementsOf st i :=
            measurementsOf_select m st i (by rw [hsd]; rfl)
          have hcount : f0.measurementCount =
              (measurementsOf (selectFittedStars m st) i).length := by
            rw [← hkeep'] at hst
            rw [countsCorrect_spec hc hst, hmeq]
          subst hf
          refine ⟨?_, ?_, ?_⟩
          · show ((measurementsOf (selectFittedStars m st) i).map
                MeasuredStarRec.x).sum / (f0.measurementCount : ℚ) = _
            rw [hcount]
          · show ((measurementsOf (selectFittedStars m st) i).map
                MeasuredStarRec.y).sum / (f0.measurementCount : ℚ) = _
            rw [hcount]
          · rw [← hcount, hkeep']
            omega

/-- C2 witness: one FittedStar holding measurements at `(1,3)` and `(3,5)`
survives a cut at `m = 2` and is normalized to their mean `(2,4)`. -/
theorem prepareFittedStars_mean_witness :
    ({ x := 2, y := 4, measurementCount := 2 } : FittedStarRec).x =
      ((measurementsOf (selectFittedStars 2 sampleStarLists) 0).map
        MeasuredStarRec.x).sum /
        ((measurementsOf (selectFittedStars 2 sampleStarLists) 0).length : ℚ) ∧
    ({ x := 2, y := 4, measurementCount := 2 } : FittedStarRec).y =
      ((measurementsOf (selectFittedStars 2 sampleStarLists) 0).map
        MeasuredStarRec.y).sum /
        ((measurementsOf (selectFittedStars 2 sampleStarLists) 0).length : ℚ) ∧
    2 ≤ (measurementsOf (selectFittedStars 2 sampleStarLists) 0).length :=
  prepareFittedStars_mean sampleStarLists 2 (by decide) 0
    { x := 2, y := 4, measurementCount := 2 }
    (by norm_num [prepareFittedStars, normalizeFittedStars, selectFittedStars,
      measurementsOf, sampleStarLists, List.filter])

theorem sqDist_nonneg (p q : TpPoint) : 0 ≤ sqDist p q :=
  add_nonneg (mul_self_nonneg _) (mul_self_nonneg _)

theorem withinCut_zero (p q : TpPoint) : withinCut 0 p q = false := by
  rw [withinCut, mul_zero]
  exact decide_eq_false (not_lt.mpr (sqDist_nonneg p q))

theorem associateOneImage_zero (fitted img : List TpPoint) :
    associateOneImage 0 fitted img = fitted ++ img := by
  rw [associateOneImage]
  congr 1
  rw [List.filter_eq_self]
  intro d _
  simp [withinCut_zero]

theorem associate_foldl_zero_length (images : List (List TpPoint)) :
    ∀ acc : List TpPoint,
      (images.foldl (associateOneImage 0) acc).length =
        acc.length + totalDetections images := by
  induction images with
  | nil => intro acc; simp [totalDetections]
  | cons img images ih =>
    intro acc
    rw [List.foldl_cons, ih, associateOneImage_zero, List.length_append]
    simp [totalDetections]
    omega

/-- C9: `associateCatalogs` with `matchCutArcsec = 0` performs no matching:
every MeasuredStar of every CcdImage becomes its own FittedStar, so the
FittedStar count equals the total detection count. -/
theorem associateCatalogs_zero_cutoff_no_matching (images : List (List TpPoint)) :
    numFittedStars 0 images = totalDetections images := by
  rw [numFittedStars, associateCatalogs, associate_foldl_zero_length images []]
  simp

theorem withinCut_mono {c1 c2 : ℚ} (h0 : 0 ≤ c1) (h12 : c1 ≤ c2)
    (p q : TpPoint) (h : withinCut c1 p q = true) : withinCut c2 p q = true := by
  rw [withinCut, decide_eq_true_eq] at h ⊢
  exact h.trans_le (mul_le_mul h12 h12 h0 (h0.trans h12))

/-- C3 counterexample: with detections at tangent-plane abscissas `0`, `3`,
then `4` and `5` arriving in three successive images, cutoffs `3 < 4` give
`2` FittedStars for the tighter cutoff but `3` for the looser one — the
incremental greedy merge is not monotone in the cutoff. -/
theorem associateCatalogs_cutoff_not_monotone :
    (3 : ℚ) < 4 ∧ numFittedStars 3 cutoffImages = 2 ∧
    numFittedStars 4 cutoffImages = 3 ∧
    ¬ numFittedStars 4 cutoffImages ≤ numFittedStars 3 cutoffImages := by
  have h3 : numFittedStars 3 cutoffImages = 2 := by
    norm_num [numFittedStars, associateCatalogs, associateOneImage, withinCut,
      sqDist, cutoffImages]
  have h4 : numFittedStars 4 cutoffImages = 3 := by
    norm_num [numFittedStars, associateCatalogs, associateOneImage, withinCut,
      sqDist, cutoffImages]
  refine ⟨by norm_num, h3, h4, ?_⟩
  rw [h3, h4]
  decide

/-- C3 amended: cutoff monotonicity does hold for a single association pass
of one catalog against a fixed FittedStar list — with `0 ≤ c1 ≤ c2`, the
looser cutoff creates at most as many new FittedStars — but not for the full
incremental multi-image `associateCatalogs` run. -/
theorem associateOneImage_cutoff_monotone (fitted img : List TpPoint)
    (c1 c2 : ℚ) (h0 : 0 ≤ c1) (h12 : c1 ≤ c2) :
    (associateOneImage c2 fitted img).length ≤
      (associateOneImage c1 fitted img).length := by
  rw [associateOneImage, associateOneImage, List.length_append,
    List.length_append]
  refine Nat.add_le_add_left (List.Sublist.length_le ?_) _
  refine List.monotone_filter_right _ ?_
  intro d h2
  rw [Bool.not_eq_true'] at h2 ⊢
  rw [List.any_eq_false] at h2 ⊢
  intro s hs
  intro hcon
  exact h2 s hs (withinCut_mono h0 h12 d s hcon)

/-- C3 amended witness: one concrete pass with cutoffs `1 ≤ 2`. -/
theorem associateOneImage_cutoff_monotone_witness :
    (associateOneImage 2 [{ x := 0, y := 0 }] [{ x := 1, y := 0 }]).length ≤
      (associateOneImage 1 [{ x := 0, y := 0 }] [{ x := 1, y := 0 }]).length :=
  associateOneImage_cutoff_monotone _ _ 1 2 (by norm_num) (by norm_num)

/-- C8: `offsetParams` called with a delta vector whose length differs from
the total parameter count of the most recent `assignIndices` layout reports
a size-mismatch usage error and leaves the state (every parameter)
unchanged. -/
theorem offsetParams_size_mismatch_error (delta : List ℚ) (st : PhotomFitState)
    (h : delta.length ≠ st.nParTot) :
    PhotomFit.offsetParams delta st = (st, some PhotomFit.UsageError.sizeMismatch) := by
  rw [PhotomFit.offsetParams, if_neg h]

/-- C8 witness: a length-1 delta against a zero-parameter layout errors out
and keeps the state. -/
theorem offsetParams_size_mismatch_error_witness :
    PhotomFit.offsetParams [1] sampleFitState =
      (sampleFitState, some PhotomFit.UsageError.sizeMismatch) :=
  offsetParams_size_mismatch_error [1] sampleFitState (by decide)

theorem blockIndices_eq_range' (s n : Nat) :
    blockIndices (s, n) = List.range' s n := by
  rw [blockIndices, List.range'_eq_map_range]

theorem assignIndicesFrom_next (npars : List Nat) :
    ∀ firstIndex, (assignIndicesFrom firstIndex npars).2 = firstIndex + npars.sum := by
  induction npars with
  | nil => intro fi; simp [assignIndicesFrom]
  | cons n rest ih =>
    intro fi
    show (assignIndicesFrom (fi + n) rest).2 = fi + (n :: rest).sum
    rw [ih, List.sum_cons]
    omega

theorem assignIndicesFrom_flatten (npars : List Nat) :
    ∀ firstIndex,
      ((assignIndicesFrom firstIndex npars).1.map blockIndices).flatten =
        List.range' firstIndex npars.sum := by
  induction npars with
  | nil => intro fi; simp [assignIndicesFrom]
  | cons n rest ih =>
    intro fi
    show (blockIndices (fi, n) ::
        ((assignIndicesFrom (fi + n) rest).1.map blockIndices)).flatten = _
    rw [List.flatten_cons, ih, blockIndices_eq_range', List.sum_cons,
      Nat.add_comm n rest.sum]
    exact List.range'_append_1 fi n rest.sum

theorem assignIndicesFrom_disjoint (npars : List Nat) (firstIndex : Nat) :
    List.Pairwise List.Disjoint
      ((assignIndicesFrom firstIndex npars).1.map blockIndices) := by
  have hn : (((assignIndicesFrom firstIndex npars).1.map blockIndices).flatten).Nodup := by
    rw [assignIndicesFrom_flatten]
    exact List.nodup_range' _ _
  exact (List.nodup_flatten.mp hn).2

/-- C1: the index blocks `assignIndices` hands to the Mappings tile
`[firstIndex, next free index)` in order with no gaps (their concatenation is
exactly that range), are pairwise disjoint (no two Mappings share an index),
the returned next free index is `firstIndex` plus the total parameter count,
and a model of `n` CcdImages each contributing `k` free parameters receives
exactly `n * k` indices; each Mapping's own indices are the
`getMappingIndices` block `index + k`, `k < getNpar()`. -/
theorem assignIndices_contiguous_disjoint (npars : List Nat) (firstIndex : Nat) :
    (∀ st : MappingState,
      PhotometryMapping.getMappingIndices st [] =
        blockIndices (st.mapping.index, PhotometryMapping.getNpar st)) ∧
    (assignIndicesFrom firstIndex npars).2 = firstIndex + npars.sum ∧
    ((assignIndicesFrom firstIndex npars).1.map blockIndices).flatten =
      List.range' firstIndex npars.sum ∧
    List.Pairwise List.Disjoint
      ((assignIndicesFrom firstIndex npars).1.map blockIndices) ∧
    ∀ n k : Nat, npars = List.replicate n k →
      (((assignIndicesFrom firstIndex npars).1.map blockIndices).flatten).length =
        n * k := by
  refine ⟨?_, assignIndicesFrom_next npars firstIndex,
    assignIndicesFrom_flatten npars firstIndex,
    assignIndicesFrom_disjoint npars firstIndex, ?_⟩
  · intro st
    rw [PhotometryMapping.getMappingIndices]
    rcases Nat.eq_zero_or_pos (PhotometryMapping.getNpar st) with h | h
    · simp [h, blockIndices]
    · simp [h, blockIndices, List.drop_replicate]
  · intro n k hrep
    rw [assignIndicesFrom_flatten, List.length_range', hrep,
      List.sum_replicate, smul_eq_mul]

/-- C1 witness: three Mappings of two parameters each, starting at index 5,
receive exactly `3 * 2` indices. -/
theorem assignIndices_contiguous_disjoint_witness :
    (((assignIndicesFrom 5 (List.replicate 3 2)).1.map blockIndices).flatten).length =
      3 * 2 :=
  (assignIndices_contiguous_disjoint (List.replicate 3 2) 5).2.2.2.2 3 2 rfl

/-- C4: `minimize(whatToFit)` returns `false` exactly when the sparse
factorization of the normal equations fails, in which case no parameter is
offset; on every other path it performs the full Newton step — assign
indices, accumulate, solve, offset — and returns `true`. -/
theorem minimize_false_iff_factorization_fails
    (lsd : PhotomFitState → NormalSystem)
    (factorize : NormalSystem → Option (List ℚ))
    (w : WhatToFit) (st : PhotomFitState) :
    ((PhotomFit.minimize lsd factorize w st).1 = false ↔
      factorize (lsd (PhotomFit.assignIndices w st)) = none) ∧
    (factorize (lsd (PhotomFit.assignIndices w st)) = none →
      PhotomFit.minimize lsd factorize w st =
        (false, PhotomFit.assignIndices w st)) ∧
    (∀ delta, factorize (lsd (PhotomFit.assignIndices w st)) = some delta →
      PhotomFit.minimize lsd factorize w st =
        (true, PhotomFit.offsetApply delta (PhotomFit.assignIndices w st))) := by
  cases hfac : factorize (lsd (PhotomFit.assignIndices w st)) with
  | none =>
    refine ⟨?_, fun _ => ?_, fun delta hd => ?_⟩
    · simp [PhotomFit.minimize, hfac]
    · simp [PhotomFit.minimize, hfac]
    · cases hd
  | some delta =>
    refine ⟨?_, fun hn => ?_, fun delta' hd => ?_⟩
    · simp [PhotomFit.minimize, hfac]
    · cases hn
    · cases hd
      simp [PhotomFit.minimize, hfac]

/-- C4 witness: with a backend whose factorization fails, a concrete
`minimize` call returns `false` and the indices-assigned, un-offset state. -/
theorem minimize_false_iff_factorization_fails_witness :
    PhotomFit.minimize sampleLsd failingFactorize sampleWhatToFit sampleFitState =
      (false, PhotomFit.assignIndices sampleWhatToFit sampleFitState) :=
  (minimize_false_iff_factorization_fails sampleLsd failingFactorize
    sampleWhatToFit sampleFitState).2.1 rfl

end Jointcal
